import Mathlib

/-!
Shallow embedding of the chat-server core (Go packages `server`, `store`,
`protocol`) and proofs about its specified behaviour.

Strings are modelled as lists of rune code points (`List Nat`); time instants
as integers (`time.Time` ordered by `Before`/`After`); Go maps as association
lists keyed exactly as the source keys them.  Impure inputs of the source
(`time.Now`, `generateID`, the password digest, the success of a backing-file
write) are passed as explicit parameters.
-/

namespace Chat

/-- Rune string: Go strings modelled as lists of code points. -/
abbrev Str := List Nat

/-- Convert a Lean string literal to the rune-list model (for concrete inputs). -/
def strOf (s : String) : Str := s.data.map Char.toNat

/-- Model of `strings.ToLower` on a single ASCII rune. -/
def lowerRune (c : Nat) : Nat := if 65 ≤ c ∧ c ≤ 90 then c + 32 else c

/-- Model of `strings.ToLower`. -/
def lowerStr (s : Str) : Str := s.map lowerRune

/-- Model of `strings.Contains(s, sub)` : `sub` occurs as a contiguous substring. -/
def strContains (s sub : Str) : Bool := decide (sub <:+: s)

/-- Model of `strings.EqualFold` (case-insensitive equality). -/
def equalFold (a b : Str) : Bool := decide (lowerStr a = lowerStr b)

/-- `store.User`: a registered account. -/
structure User where
  ID : Str
  Username : Str
  PasswordHash : Str
  CreatedAt : Int
deriving DecidableEq

/-- `protocol.StoredMessage`: the persisted form of one chat message. -/
structure StoredMessage where
  ID : Str
  UserID : Str
  Username : Str
  Content : Str
  Timestamp : Int
deriving DecidableEq

/-- Lookup in an association list (Go `m[k]` read). -/
def assocFind (k : Str) : List (Str × β) → Option β
  | [] => none
  | (k', v) :: rest => if k = k' then some v else assocFind k rest

/-- Insertion into an association list (Go `m[k] = v`). -/
def assocInsert (k : Str) (v : β) : List (Str × β) → List (Str × β)
  | [] => [(k, v)]
  | (k', v') :: rest =>
      if k = k' then (k, v) :: rest else (k', v') :: assocInsert k v rest

/-- Deletion from an association list (Go `delete(m, k)`). -/
def assocErase (k : Str) : List (Str × β) → List (Str × β)
  | [] => []
  | (k', v') :: rest =>
      if k = k' then rest else (k', v') :: assocErase k rest

/-- `store.Store`: in-memory users (keyed by lower-case username), users by id,
and the insertion-ordered message log. -/
structure Store where
  users : List (Str × User)
  byID : List (Str × User)
  messages : List StoredMessage
deriving DecidableEq

/-- Domain errors a `RegisterUser` call can return. -/
inductive RegErr where
  | usernameTaken
  | saveFailed
deriving DecidableEq

/-- Outcome of `Store.RegisterUser`: the returned user, the returned error,
and the store after the call. -/
structure RegOutcome where
  user : Option User
  err : Option RegErr
  store : Store
deriving DecidableEq

/-- `Store.RegisterUser`.  `hash` models the password digest, `genID` the fresh
id from `generateID`, `now` the creation instant, `writeOk` whether the
backing-file write succeeds.  On a duplicate (case-insensitive) username the
store is returned untouched with a domain error; otherwise the account is
added to the in-memory maps and the result of `saveUsersLocked` is returned. -/
def Store.RegisterUser (hash : Str → Str) (genID : Str) (now : Int)
    (writeOk : Bool) (username password : Str) (s : Store) : RegOutcome :=
  let key := lowerStr username
  match assocFind key s.users with
  | some _ => ⟨none, some .usernameTaken, s⟩
  | none =>
      let u : User := ⟨genID, username, hash password, now⟩
      ⟨some u, if writeOk then none else some .saveFailed,
        { s with users := assocInsert key u s.users,
                 byID := assocInsert u.ID u s.byID }⟩

/-- `Store.SaveMessage`: appends to the in-memory log and returns the result of
`saveMessagesLocked` (`none` on success, `some ()` on write failure). -/
def Store.SaveMessage (writeOk : Bool) (msg : StoredMessage) (s : Store) :
    Store × Option Unit :=
  ({ s with messages := s.messages ++ [msg] },
   if writeOk then none else some ())

/-- `Store.GetHistory`: the last `n` messages; all messages when `n ≤ 0` or
`n ≥ total`. -/
def Store.GetHistory (n : Int) (s : Store) : List StoredMessage :=
  let total := s.messages.length
  if n ≤ 0 ∨ (total : Int) ≤ n then s.messages
  else s.messages.drop (total - n.toNat)

/-- One message survives the `continue` chain of the `Store.Search` loop.
`q` and `u` are the pre-lowered query and username, as in the source. -/
def searchKeep (q u : Str) (From To : Option Int) (m : StoredMessage) : Bool :=
  if !q.isEmpty && !(strContains (lowerStr m.Content) q) then false
  else if !u.isEmpty && !(equalFold m.Username u) then false
  else if (match From with | some f => decide (m.Timestamp < f) | none => false) then false
  else if (match To with | some t => decide (t < m.Timestamp) | none => false) then false
  else true

/-- `Store.Search`: messages matching all non-empty criteria, in log order. -/
def Store.Search (query username : Str) (From To : Option Int) (s : Store) :
    List StoredMessage :=
  let q := lowerStr query
  let u := lowerStr username
  s.messages.filter (searchKeep q u From To)

/-- `Store.saveUsersLocked`: the user records written to `users.json`
(the map's values). -/
def Store.saveUsersLocked (s : Store) : List User := s.users.map Prod.snd

/-- `Store.saveMessagesLocked`: the message list written to `messages.json`. -/
def Store.saveMessagesLocked (s : Store) : List StoredMessage := s.messages

/-- `Store.load` applied to saved snapshots: each loaded user is inserted
under its lower-cased username (and under its id), and the message list is
taken as read. -/
def Store.load (users : List User) (msgs : List StoredMessage) : Store :=
  { users := users.foldl (fun m u => assocInsert (lowerStr u.Username) u m) [],
    byID := users.foldl (fun m u => assocInsert u.ID u m) [],
    messages := msgs }

/-! ## Hub -/

/-- Capacity of a client's buffered send channel (`sendBufSize = 256`). -/
def sendBufSize : Nat := 256

/-- One client as the Hub sees it: its connection id, the contents of its
buffered send channel, and whether that channel has been closed. -/
structure Conn where
  cid : Str
  queue : List Str
  closed : Bool
deriving DecidableEq

/-- The `case data := <-h.broadcast` loop of `Hub.Run`: for each live client a
non-blocking send is attempted; a client whose send buffer has room receives
`data` at the tail of its queue, a client whose buffer is full is deleted from
the live set and its channel closed.  Returns (remaining live set, dropped
clients). -/
def broadcastLoop (data : Str) : List Conn → List Conn × List Conn
  | [] => ([], [])
  | c :: rest =>
      let (live, dropped) := broadcastLoop data rest
      if c.queue.length < sendBufSize then
        ({ c with queue := c.queue ++ [data] } :: live, dropped)
      else
        (live, { c with closed := true } :: dropped)

/-! ## Server-side state and packet handlers -/

/-- `Client` as connection-handler state: connection id plus the identity
bound by `setIdentity` (empty `userID` = unauthenticated). -/
structure Client where
  id : Str
  userID : Str
  username : Str
deriving DecidableEq

/-- `Client.isAuthenticated`. -/
def Client.isAuthenticated (c : Client) : Bool := !c.userID.isEmpty

/-- `protocol.UserInfo`. -/
structure UserInfo where
  UserID : Str
  Username : Str
deriving DecidableEq

/-- A packet placed on the Hub's broadcast channel: either a chat broadcast or
a system notice. -/
inductive BPacket where
  | chat (UserID Username Content : Str) (Timestamp : Int)
  | system (message : Str)
deriving DecidableEq

/-- Payload carried by a `response` packet. -/
inductive RespData where
  | noData
  | msgs (l : List StoredMessage)
  | users (l : List UserInfo)
deriving DecidableEq

/-- `protocol.ResponsePayload`. -/
structure Response where
  Success : Bool
  Message : Str
  Data : RespData
deriving DecidableEq

/-- `Client.sendError`: a `success:false` response with an `error: ` message. -/
def sendError (msg : Str) : Response :=
  ⟨false, strOf "error: " ++ msg, .noData⟩

/-- Capacity of the worker pool's job channel (`make(chan ..., 1024)`). -/
def poolCap : Nat := 1024

/-- Server state relevant to packet handling: the store, the online index
(keyed by user id), the Hub broadcast channel contents, and the worker pool's
job queue contents. -/
structure SState where
  store : Store
  online : List (Str × Client)
  hubQueue : List BPacket
  poolJobs : List StoredMessage
deriving DecidableEq

/-- `Server.addOnline`: `s.online[c.userID] = c`. -/
def addOnline (c : Client) (online : List (Str × Client)) : List (Str × Client) :=
  assocInsert c.userID c online

/-- `Server.removeOnline`: no-op for an unauthenticated client, otherwise
`delete(s.online, c.userID)`. -/
def removeOnline (c : Client) (online : List (Str × Client)) : List (Str × Client) :=
  if c.isAuthenticated then assocErase c.userID online else online

/-- `Server.onlineUsers`: the snapshot handed to `users` queries. -/
def onlineUsers (online : List (Str × Client)) : List UserInfo :=
  online.map (fun e => ⟨e.2.userID, e.2.username⟩)

/-- `workerPool.submit`: non-blocking; the job is dropped when the queue is at
capacity. -/
def poolSubmit (msg : StoredMessage) (jobs : List StoredMessage) : List StoredMessage :=
  if jobs.length < poolCap then jobs ++ [msg] else jobs

/-- Body of a worker-pool goroutine for one job: calls `Store.SaveMessage` and
logs (discards) any returned error. -/
def workerStep (writeOk : Bool) (msg : StoredMessage) (s : Store) : Store :=
  (s.SaveMessage writeOk msg).1

/-- `Server.handleChat`.  The payload is `none` when the JSON fails to decode,
otherwise the decoded content.  Returns the new server state and the packets
sent back to the requesting client. -/
def handleChat (c : Client) (payload : Option Str) (now : Int) (st : SState) :
    SState × List Response :=
  if !c.isAuthenticated then
    (st, [sendError (strOf "you must login or register first")])
  else
    match payload with
    | none => (st, [sendError (strOf "chat requires \x7bcontent\x7d")])
    | some content =>
        if content.isEmpty then
          (st, [sendError (strOf "chat requires \x7bcontent\x7d")])
        else
          let msg : StoredMessage :=
            ⟨strOf (toString now), c.userID, c.username, content, now⟩
          let st1 := { st with hubQueue := st.hubQueue ++
            [BPacket.chat msg.UserID msg.Username msg.Content msg.Timestamp] }
          ({ st1 with poolJobs := poolSubmit msg st1.poolJobs }, [])

/-- Decoded `protocol.SearchPayload`. -/
structure SearchPayload where
  Query : Str
  Username : Str
  From : Option Int
  To : Option Int
deriving DecidableEq

/-- `Server.handleSearch`.  `payload` is `none` on a JSON decode failure. -/
def handleSearch (c : Client) (payload : Option SearchPayload) (st : SState) :
    SState × List Response :=
  if !c.isAuthenticated then
    (st, [sendError (strOf "you must login first")])
  else
    match payload with
    | none => (st, [sendError (strOf "malformed search payload")])
    | some p =>
        if p.Query.isEmpty && p.Username.isEmpty &&
            p.From.isNone && p.To.isNone then
          (st, [sendError (strOf "provide at least one search criterion (query, username, from, or to)")])
        else
          (st, [⟨true, strOf "result(s)",
                 .msgs (st.store.Search p.Query p.Username p.From p.To)⟩])

/-- The limit `Server.handleHistory` actually uses: 20 when the payload fails
to decode or the decoded limit is non-positive. -/
def effLimit : Option Int → Int
  | none => 20
  | some k => if k ≤ 0 then 20 else k

/-- `Server.handleHistory`.  `payload` is `none` on a JSON decode failure;
`some k` is the decoded limit (an absent field decodes to `some 0`). -/
def handleHistory (c : Client) (payload : Option Int) (st : SState) :
    SState × List Response :=
  if !c.isAuthenticated then
    (st, [sendError (strOf "you must login first")])
  else
    (st, [⟨true, strOf "message(s)", .msgs (st.store.GetHistory (effLimit payload))⟩])

/-- `Server.handleUsers`. -/
def handleUsers (c : Client) (st : SState) : SState × List Response :=
  if !c.isAuthenticated then
    (st, [sendError (strOf "you must login first")])
  else
    (st, [⟨true, strOf "user(s) online", .users (onlineUsers st.online)⟩])

/-- `Server.handleRegister`.  `payload` is `none` when the JSON fails to
decode or username/password is empty.  Returns the new server state, the
client (with any identity bound by `setIdentity`), and the responses sent. -/
def handleRegister (c : Client) (payload : Option (Str × Str))
    (hash : Str → Str) (genID : Str) (now : Int) (writeOk : Bool)
    (st : SState) : SState × Client × List Response :=
  match payload with
  | none => (st, c, [sendError (strOf "register requires \x7busername, password\x7d")])
  | some (username, password) =>
      let r := st.store.RegisterUser hash genID now writeOk username password
      match r.user, r.err with
      | some u, none =>
          let c' := { c with userID := u.ID, username := u.Username }
          ({ st with store := r.store,
                     online := addOnline c' st.online,
                     hubQueue := st.hubQueue ++
                       [BPacket.system (u.Username ++ strOf " joined the chat")] },
           c', [⟨true, strOf "registered and logged in", .noData⟩])
      | _, _ =>
          ({ st with store := r.store }, c, [sendError (strOf "register failed")])

/-- Conjunction of the search criteria exactly as the specification words
them: case-insensitive substring on content, case-insensitive exact match on
the author's username, inclusive timestamp bounds. -/
def specCriteriaMatch (query username : Str) (From To : Option Int)
    (m : StoredMessage) : Bool :=
  (decide (query = []) || decide (lowerStr query <:+: lowerStr m.Content)) &&
  (decide (username = []) || decide (lowerStr m.Username = lowerStr username)) &&
  (match From with | some f => decide (f ≤ m.Timestamp) | none => true) &&
  (match To with | some t => decide (m.Timestamp ≤ t) | none => true)

/-- Sample connection with room in its send buffer. -/
def connRoomy : Conn := ⟨strOf "conn-1", [], false⟩

/-- Sample connection whose send buffer is at capacity. -/
def connFull : Conn := ⟨strOf "conn-2", List.replicate sendBufSize [], false⟩

/-- Sample message: content `hello world` by alice at time 1. -/
def msgHelloWorld : StoredMessage :=
  ⟨strOf "m1", strOf "a1", strOf "alice", strOf "hello world", 1⟩

/-- Sample message: content `goodbye` by bob at time 2. -/
def msgGoodbye : StoredMessage :=
  ⟨strOf "m2", strOf "b1", strOf "bob", strOf "goodbye", 2⟩

/-- Sample message: content `hello again` by alice at time 3. -/
def msgHelloAgain : StoredMessage :=
  ⟨strOf "m3", strOf "a1", strOf "alice", strOf "hello again", 3⟩

/-- Sample store holding the three sample messages in insertion order. -/
def sampleMsgStore : Store := ⟨[], [], [msgHelloWorld, msgGoodbye, msgHelloAgain]⟩

/-- Sample server state around `sampleMsgStore`. -/
def sampleMsgSState : SState := ⟨sampleMsgStore, [], [], []⟩

/-! ## Association-list lemmas -/

theorem assocFind_eq_none_iff (k : Str) (l : List (Str × β)) :
    assocFind k l = none ↔ k ∉ l.map Prod.fst := by
  induction l with
  | nil => simp [assocFind]
  | cons e rest ih =>
      obtain ⟨k', v⟩ := e
      by_cases h : k = k' <;> simp [assocFind, h, ih]

theorem assocFind_insert_self (k : Str) (v : β) (l : List (Str × β)) :
    assocFind k (assocInsert k v l) = some v := by
  induction l with
  | nil => simp [assocInsert, assocFind]
  | cons e rest ih =>
      obtain ⟨k', v'⟩ := e
      by_cases h : k = k' <;> simp [assocInsert, assocFind, h, ih]

theorem assocInsert_of_not_mem (k : Str) (v : β) (l : List (Str × β))
    (h : k ∉ l.map Prod.fst) : assocInsert k v l = l ++ [(k, v)] := by
  induction l with
  | nil => simp [assocInsert]
  | cons e rest ih =>
      obtain ⟨k', v'⟩ := e
      simp only [List.map_cons, List.mem_cons] at h
      push_neg at h
      simp [assocInsert, h.1, ih h.2]

theorem assocInsert_keys (k : Str) (v : β) (l : List (Str × β)) :
    (assocInsert k v l).map Prod.fst =
      if k ∈ l.map Prod.fst then l.map Prod.fst else l.map Prod.fst ++ [k] := by
  induction l with
  | nil => simp [assocInsert]
  | cons e rest ih =>
      obtain ⟨k', v'⟩ := e
      by_cases h : k = k'
      · simp [assocInsert, h]
      · by_cases hm : k ∈ rest.map Prod.fst <;>
          simp [assocInsert, h, hm, ih, Ne.symm h]

theorem assocFind_erase_self (k : Str) (l : List (Str × β))
    (hnd : (l.map Prod.fst).Nodup) : assocFind k (assocErase k l) = none := by
  induction l with
  | nil => simp [assocErase, assocFind]
  | cons e rest ih =>
      obtain ⟨k', v'⟩ := e
      simp only [List.map_cons, List.nodup_cons] at hnd
      by_cases h : k = k'
      · subst h
        simp only [assocErase, if_pos rfl]
        exact (assocFind_eq_none_iff k rest).mpr hnd.1
      · simp [assocErase, assocFind, h, ih hnd.2]

theorem isEmpty_false_of_ne_nil {l : Str} (h : l ≠ []) : l.isEmpty = false := by
  cases l with
  | nil => exact absurd rfl h
  | cons a t => rfl

/-! ## Claim theorems -/

/-- Claim C10: for every message log and every `n ≤ 0`, the Store's own
`GetHistory n` returns the entire message log rather than a default-bounded
suffix; the default bound of 20 lives only in the packet handler's limit
computation (`effLimit`), so a direct caller of the Store receives all
messages. -/
theorem getHistory_nonpositive_returns_all (s : Store) (n : Int) (h : n ≤ 0) :
    s.GetHistory n = s.messages ∧ effLimit (some n) = 20 := by
  refine ⟨?_, by simp [effLimit, h]⟩
  unfold Store.GetHistory
  simp [h]

theorem getHistory_nonpositive_returns_all_witness :
    ((-1 : Int) ≤ 0) ∧
      ((Store.mk [] [] (List.replicate 21 ⟨[], [], [], [], 0⟩)).GetHistory (-1) =
        (Store.mk [] [] (List.replicate 21 ⟨[], [], [], [], 0⟩)).messages ∧
       effLimit (some (-1)) = 20) :=
  ⟨by decide,
   getHistory_nonpositive_returns_all
     (Store.mk [] [] (List.replicate 21 ⟨[], [], [], [], 0⟩)) (-1) (by decide)⟩

/-- Claim C8: chat, search, history and users, attempted by an unauthenticated
connection, each return an explicit `success:false` error response to that
connection and leave the whole server state (store, online index, hub
channel, pool queue) unchanged, emitting no broadcast. -/
theorem unauthenticated_ops_rejected (c : Client) (st : SState)
    (p : Option Str) (sp : Option SearchPayload) (hp : Option Int) (now : Int)
    (h : c.userID = []) :
    handleChat c p now st =
      (st, [sendError (strOf "you must login or register first")]) ∧
    handleSearch c sp st = (st, [sendError (strOf "you must login first")]) ∧
    handleHistory c hp st = (st, [sendError (strOf "you must login first")]) ∧
    handleUsers c st = (st, [sendError (strOf "you must login first")]) ∧
    (sendError (strOf "you must login first")).Success = false ∧
    (sendError (strOf "you must login or register first")).Success = false := by
  have hA : c.isAuthenticated = false := by
    simp [Client.isAuthenticated, h]
  refine ⟨?_, ?_, ?_, ?_, rfl, rfl⟩ <;>
    simp [handleChat, handleSearch, handleHistory, handleUsers, hA]

theorem unauthenticated_ops_rejected_witness :
    (Client.mk (strOf "conn-1") [] []).userID = [] ∧
    (handleChat (Client.mk (strOf "conn-1") [] []) (some (strOf "hi")) 5
        (SState.mk (Store.mk [] [] []) [] [] []) =
      (SState.mk (Store.mk [] [] []) [] [] [],
       [sendError (strOf "you must login or register first")]) ∧
     handleSearch (Client.mk (strOf "conn-1") [] []) none
        (SState.mk (Store.mk [] [] []) [] [] []) =
      (SState.mk (Store.mk [] [] []) [] [] [],
       [sendError (strOf "you must login first")]) ∧
     handleHistory (Client.mk (strOf "conn-1") [] []) (some 3)
        (SState.mk (Store.mk [] [] []) [] [] []) =
      (SState.mk (Store.mk [] [] []) [] [] [],
       [sendError (strOf "you must login first")]) ∧
     handleUsers (Client.mk (strOf "conn-1") [] [])
        (SState.mk (Store.mk [] [] []) [] [] []) =
      (SState.mk (Store.mk [] [] []) [] [] [],
       [sendError (strOf "you must login first")]) ∧
     (sendError (strOf "you must login first")).Success = false ∧
     (sendError (strOf "you must login or register first")).Success = false) :=
  ⟨rfl,
   unauthenticated_ops_rejected (Client.mk (strOf "conn-1") [] [])
     (SState.mk (Store.mk [] [] []) [] [] []) (some (strOf "hi")) none (some 3) 5 rfl⟩

/-- Claim C2: an authenticated chat send with non-empty content appends exactly one
broadcast of the message to the Hub's channel and sends no error back; this
holds for every pool-queue state, and in particular when the job queue is at
capacity the persistence job is dropped while the broadcast is still
emitted unchanged. -/
theorem chat_broadcast_unconditional (c : Client) (content : Str) (now : Int)
    (st : SState) (hauth : c.userID ≠ []) (hcontent : content ≠ []) :
    (handleChat c (some content) now st).1.hubQueue =
      st.hubQueue ++ [BPacket.chat c.userID c.username content now] ∧
    (handleChat c (some content) now st).2 = [] ∧
    (handleChat c (some content) now st).1.store = st.store ∧
    (poolCap ≤ st.poolJobs.length →
      (handleChat c (some content) now st).1.poolJobs = st.poolJobs) := by
  have hA : c.isAuthenticated = true := by
    simp [Client.isAuthenticated, isEmpty_false_of_ne_nil hauth]
  have hC : content.isEmpty = false := isEmpty_false_of_ne_nil hcontent
  refine ⟨?_, ?_, ?_, fun hfull => ?_⟩ <;>
    simp [handleChat, hA, hC, poolSubmit]
  assumption

theorem chat_broadcast_unconditional_witness :
    (strOf "u1" ≠ ([] : Str)) ∧ (strOf "hello" ≠ ([] : Str)) ∧
    ((handleChat (Client.mk (strOf "conn-1") (strOf "u1") (strOf "alice"))
        (some (strOf "hello")) 7 (SState.mk (Store.mk [] [] []) [] [] [])).1.hubQueue =
      [] ++ [BPacket.chat (strOf "u1") (strOf "alice") (strOf "hello") 7] ∧
     (handleChat (Client.mk (strOf "conn-1") (strOf "u1") (strOf "alice"))
        (some (strOf "hello")) 7 (SState.mk (Store.mk [] [] []) [] [] [])).2 = [] ∧
     (handleChat (Client.mk (strOf "conn-1") (strOf "u1") (strOf "alice"))
        (some (strOf "hello")) 7 (SState.mk (Store.mk [] [] []) [] [] [])).1.store =
       Store.mk [] [] [] ∧
     (poolCap ≤ ([] : List StoredMessage).length →
       (handleChat (Client.mk (strOf "conn-1") (strOf "u1") (strOf "alice"))
          (some (strOf "hello")) 7 (SState.mk (Store.mk [] [] []) [] [] [])).1.poolJobs =
         [])) :=
  ⟨by decide, by decide,
   chat_broadcast_unconditional (Client.mk (strOf "conn-1") (strOf "u1") (strOf "alice"))
     (strOf "hello") 7 (SState.mk (Store.mk [] [] []) [] [] [])
     (by decide) (by decide)⟩

theorem broadcastLoop_spec (data : Str) (l : List Conn) :
    (broadcastLoop data l).1 =
      (l.filter (fun c => decide (c.queue.length < sendBufSize))).map
        (fun c => { c with queue := c.queue ++ [data] }) ∧
    (broadcastLoop data l).2 =
      (l.filter (fun c => decide (¬ c.queue.length < sendBufSize))).map
        (fun c => { c with closed := true }) := by
  induction l with
  | nil => simp [broadcastLoop]
  | cons c rest ih =>
      by_cases h : c.queue.length < sendBufSize
      · simp [broadcastLoop, h, ih.1, ih.2]
      · have h' : sendBufSize ≤ c.queue.length := Nat.not_lt.mp h
        simp [broadcastLoop, h, h', ih.1, ih.2]

/-- Claim C1: processing one broadcast event enqueues the payload exactly once at
the tail of every live connection whose send buffer has spare room, while
every connection with a full buffer is removed from the live set and its
channel closed — and the latter never prevents delivery to the rest: the
resulting live set is exactly the spare-capacity connections, each with the
payload appended. -/
theorem hub_broadcast_fanout (data : Str) (l : List Conn)
    (hnd : (l.map Conn.cid).Nodup) :
    ((broadcastLoop data l).1 =
      (l.filter (fun c => decide (c.queue.length < sendBufSize))).map
        (fun c => { c with queue := c.queue ++ [data] })) ∧
    ((broadcastLoop data l).2 =
      (l.filter (fun c => decide (¬ c.queue.length < sendBufSize))).map
        (fun c => { c with closed := true })) ∧
    (∀ c ∈ l, c.queue.length < sendBufSize →
      (broadcastLoop data l).1.count { c with queue := c.queue ++ [data] } = 1) ∧
    (∀ c ∈ l, sendBufSize ≤ c.queue.length →
      c ∉ (broadcastLoop data l).1 ∧
      { c with closed := true } ∈ (broadcastLoop data l).2) := by
  obtain ⟨h1, h2⟩ := broadcastLoop_spec data l
  have hlnd : l.Nodup := List.Nodup.of_map _ hnd
  have hinj : Function.Injective
      (fun c : Conn => { c with queue := c.queue ++ [data] }) := by
    intro a b hab
    cases a; cases b
    simp only [Conn.mk.injEq] at hab ⊢
    exact ⟨hab.1, List.append_cancel_right hab.2.1, hab.2.2⟩
  refine ⟨h1, h2, ?_, ?_⟩
  · intro c hc hroom
    rw [h1]
    rw [List.count_map_of_injective _ _ hinj]
    rw [List.count_filter (by simpa using hroom)]
    exact List.count_eq_one_of_mem hlnd hc
  · intro c hc hfull
    constructor
    · rw [h1]
      intro hmem
      obtain ⟨c', hc', hcc⟩ := List.mem_map.mp hmem
      have hc'l : c' ∈ l := List.mem_of_mem_filter hc'
      have hcid : c'.cid = c.cid := by
        have := congrArg Conn.cid hcc
        simpa using this
      have hce : c' = c :=
        List.inj_on_of_nodup_map hnd hc'l hc hcid
      subst hce
      have := congrArg (fun x => x.queue.length) hcc
      simp at this
    · rw [h2]
      refine List.mem_map.mpr ⟨c, ?_, rfl⟩
      refine List.mem_filter.mpr ⟨hc, by simpa using hfull⟩

theorem hub_broadcast_fanout_witness :
    (([connRoomy, connFull].map Conn.cid).Nodup) ∧
    (((broadcastLoop (strOf "m") [connRoomy, connFull]).1 =
       ([connRoomy, connFull].filter
          (fun c => decide (c.queue.length < sendBufSize))).map
         (fun c => { c with queue := c.queue ++ [strOf "m"] })) ∧
     ((broadcastLoop (strOf "m") [connRoomy, connFull]).2 =
       ([connRoomy, connFull].filter
          (fun c => decide (¬ c.queue.length < sendBufSize))).map
         (fun c => { c with closed := true })) ∧
     (∀ c ∈ [connRoomy, connFull], c.queue.length < sendBufSize →
       (broadcastLoop (strOf "m") [connRoomy, connFull]).1.count
         { c with queue := c.queue ++ [strOf "m"] } = 1) ∧
     (∀ c ∈ [connRoomy, connFull], sendBufSize ≤ c.queue.length →
       c ∉ (broadcastLoop (strOf "m") [connRoomy, connFull]).1 ∧
       { c with closed := true } ∈ (broadcastLoop (strOf "m") [connRoomy, connFull]).2)) :=
  ⟨by decide, hub_broadcast_fanout (strOf "m") [connRoomy, connFull] (by decide)⟩

theorem registerUser_taken (s : Store) (hash : Str → Str) (g : Str) (t : Int)
    (w : Bool) (un pw : Str) (u' : User)
    (hdup : assocFind (lowerStr un) s.users = some u') :
    s.RegisterUser hash g t w un pw = ⟨none, some RegErr.usernameTaken, s⟩ := by
  simp only [Store.RegisterUser]
  rw [hdup]

theorem registerUser_fresh (s : Store) (hash : Str → Str) (g : Str) (t : Int)
    (w : Bool) (un pw : Str)
    (hfresh : assocFind (lowerStr un) s.users = none) :
    s.RegisterUser hash g t w un pw =
      ⟨some ⟨g, un, hash pw, t⟩,
       if w then none else some RegErr.saveFailed,
       { s with users := assocInsert (lowerStr un) ⟨g, un, hash pw, t⟩ s.users,
                byID := assocInsert g ⟨g, un, hash pw, t⟩ s.byID }⟩ := by
  simp only [Store.RegisterUser]
  rw [hfresh]

/-- Claim C5: after a successful registration of username `u1`, registering again
under any case variation `u2` of it fails with the `usernameTaken` domain
error, returns no user, and leaves the Store (the first account included)
exactly as it was after the first registration. -/
theorem register_duplicate_rejected (s : Store) (hash : Str → Str)
    (g1 g2 : Str) (t1 t2 : Int) (w1 w2 : Bool) (u1 u2 p1 p2 : Str)
    (hfresh : assocFind (lowerStr u1) s.users = none)
    (hcase : lowerStr u2 = lowerStr u1) :
    (s.RegisterUser hash g1 t1 w1 u1 p1).store.RegisterUser hash g2 t2 w2 u2 p2 =
      ⟨none, some RegErr.usernameTaken, (s.RegisterUser hash g1 t1 w1 u1 p1).store⟩ := by
  refine registerUser_taken _ _ _ _ _ _ _ ⟨g1, u1, hash p1, t1⟩ ?_
  rw [registerUser_fresh s hash g1 t1 w1 u1 p1 hfresh, hcase]
  exact assocFind_insert_self _ _ _

theorem register_duplicate_rejected_witness :
    assocFind (lowerStr (strOf "Alice")) (Store.mk [] [] []).users = none ∧
    lowerStr (strOf "ALICE") = lowerStr (strOf "Alice") ∧
    (((Store.mk [] [] []).RegisterUser (fun p => p) (strOf "id1") 1 true
        (strOf "Alice") (strOf "pw1")).store.RegisterUser (fun p => p)
        (strOf "id2") 2 true (strOf "ALICE") (strOf "pw2") =
      ⟨none, some RegErr.usernameTaken,
       ((Store.mk [] [] []).RegisterUser (fun p => p) (strOf "id1") 1 true
          (strOf "Alice") (strOf "pw1")).store⟩) :=
  ⟨by decide, by decide,
   register_duplicate_rejected (Store.mk [] [] []) (fun p => p)
     (strOf "id1") (strOf "id2") 1 2 true true
     (strOf "Alice") (strOf "ALICE") (strOf "pw1") (strOf "pw2")
     (by decide) (by decide)⟩

/-- Claim C4 is false on the code: with a failing backing-file write, both mutating
Store operations return the write error to their caller instead of success —
`RegisterUser` returns the `saveFailed` error and `SaveMessage` returns a
non-nil error value. -/
theorem store_write_failure_cex :
    ((Store.mk [] [] []).RegisterUser (fun p => p) (strOf "id1") 0 false
        (strOf "alice") (strOf "pw")).err = some RegErr.saveFailed ∧
    ((Store.mk [] [] []).SaveMessage false
        (StoredMessage.mk (strOf "1") (strOf "u") (strOf "a") (strOf "hi") 0)).2 =
      some () := by decide

/-- Claim C4 amended: on a backing-file write failure the in-memory state still
advances — the new account (or message) is present in memory afterwards —
but the error is returned to the caller of the mutating Store operation
rather than swallowed there: the worker pool logs and discards the
`SaveMessage` error, while the `RegisterUser` error reaches the packet
handler, which reports failure to the client yet keeps the advanced store. -/
theorem store_write_failure_propagates (s : Store) (hash : Str → Str)
    (g : Str) (t : Int) (un pw : Str) (m : StoredMessage) (c : Client)
    (st : SState) (hfresh : assocFind (lowerStr un) s.users = none)
    (hst : st.store = s) :
    assocFind (lowerStr un) (s.RegisterUser hash g t false un pw).store.users =
      some ⟨g, un, hash pw, t⟩ ∧
    (s.RegisterUser hash g t false un pw).err = some RegErr.saveFailed ∧
    (s.SaveMessage false m).1.messages = s.messages ++ [m] ∧
    (s.SaveMessage false m).2 = some () ∧
    workerStep false m s = (s.SaveMessage false m).1 ∧
    (handleRegister c (some (un, pw)) hash g t false st).2.2 =
      [sendError (strOf "register failed")] ∧
    (handleRegister c (some (un, pw)) hash g t false st).1.store =
      (s.RegisterUser hash g t false un pw).store := by
  subst hst
  rw [registerUser_fresh _ hash g t false un pw hfresh]
  refine ⟨assocFind_insert_self _ _ _, rfl, rfl, rfl, rfl, ?_, ?_⟩ <;>
    simp [handleRegister, registerUser_fresh _ hash g t false un pw hfresh]

/-- Claim C3 is false on the code: the online index is keyed by account id, so two
simultaneous authenticated connections under the same account yield a
one-entry `users()` snapshot rather than one entry per connection, and the
disconnect of one of them empties the index even though the other connection
is still authenticated. -/
theorem users_snapshot_per_connection_cex :
    (onlineUsers (addOnline (Client.mk (strOf "conn-2") (strOf "u1") (strOf "alice"))
      (addOnline (Client.mk (strOf "conn-1") (strOf "u1") (strOf "alice")) []))).length = 1 ∧
    removeOnline (Client.mk (strOf "conn-1") (strOf "u1") (strOf "alice"))
      (addOnline (Client.mk (strOf "conn-2") (strOf "u1") (strOf "alice"))
        (addOnline (Client.mk (strOf "conn-1") (strOf "u1") (strOf "alice")) [])) = [] := by
  decide

/-- Claim C3 amended: the `users()` snapshot has one entry per online account id,
not per connection: a successful authentication overwrites the single entry
for that account id (the most recent connection wins), and the disconnect of
any authenticated connection under that id removes the account's entry from
the online index entirely. -/
theorem online_index_keyed_by_account (online : List (Str × Client)) (c : Client)
    (hnd : (online.map Prod.fst).Nodup) (hauth : c.userID ≠ []) :
    assocFind c.userID (addOnline c online) = some c ∧
    ((addOnline c online).map Prod.fst).countP (fun k => decide (k = c.userID)) = 1 ∧
    assocFind c.userID (removeOnline c online) = none ∧
    (onlineUsers online).length = online.length := by
  have hA : c.isAuthenticated = true := by
    simp [Client.isAuthenticated, isEmpty_false_of_ne_nil hauth]
  refine ⟨assocFind_insert_self _ _ _, ?_, ?_, by simp [onlineUsers]⟩
  · rw [addOnline, assocInsert_keys]
    by_cases hm : c.userID ∈ online.map Prod.fst
    · rw [if_pos hm]
      exact List.count_eq_one_of_mem hnd hm
    · rw [if_neg hm, List.countP_append]
      rw [List.countP_eq_zero.mpr ?_]
      · simp
      · intro a ha
        simp only [decide_eq_true_eq]
        rintro rfl
        exact hm ha
  · rw [removeOnline, if_pos hA]
    exact assocFind_erase_self _ _ hnd

theorem online_index_keyed_by_account_witness :
    (([((strOf "u9"), Client.mk (strOf "conn-9") (strOf "u9") (strOf "bob"))].map
        Prod.fst).Nodup) ∧
    (strOf "u1" ≠ ([] : Str)) ∧
    (assocFind (strOf "u1")
       (addOnline (Client.mk (strOf "conn-1") (strOf "u1") (strOf "alice"))
         [((strOf "u9"), Client.mk (strOf "conn-9") (strOf "u9") (strOf "bob"))]) =
       some (Client.mk (strOf "conn-1") (strOf "u1") (strOf "alice")) ∧
     ((addOnline (Client.mk (strOf "conn-1") (strOf "u1") (strOf "alice"))
         [((strOf "u9"), Client.mk (strOf "conn-9") (strOf "u9") (strOf "bob"))]).map
        Prod.fst).countP (fun k => decide (k = strOf "u1")) = 1 ∧
     assocFind (strOf "u1")
       (removeOnline (Client.mk (strOf "conn-1") (strOf "u1") (strOf "alice"))
         [((strOf "u9"), Client.mk (strOf "conn-9") (strOf "u9") (strOf "bob"))]) = none ∧
     (onlineUsers [((strOf "u9"), Client.mk (strOf "conn-9") (strOf "u9") (strOf "bob"))]).length =
       [((strOf "u9"), Client.mk (strOf "conn-9") (strOf "u9") (strOf "bob"))].length) :=
  ⟨by decide, by decide,
   online_index_keyed_by_account
     [((strOf "u9"), Client.mk (strOf "conn-9") (strOf "u9") (strOf "bob"))]
     (Client.mk (strOf "conn-1") (strOf "u1") (strOf "alice"))
     (by decide) (by decide)⟩

theorem lowerRune_idem (c : Nat) : lowerRune (lowerRune c) = lowerRune c := by
  unfold lowerRune
  by_cases h : 65 ≤ c ∧ c ≤ 90
  · rw [if_pos h, if_neg (by omega)]
  · rw [if_neg h, if_neg h]

theorem lowerStr_idem (s : Str) : lowerStr (lowerStr s) = lowerStr s := by
  unfold lowerStr
  rw [List.map_map]
  exact List.map_congr_left (fun a _ => lowerRune_idem a)

theorem lowerStr_isEmpty (s : Str) : (lowerStr s).isEmpty = decide (s = []) := by
  cases s <;> simp [lowerStr]

theorem if_chain_eq (g1 g2 g3 g4 : Bool) :
    (if g1 then false
     else if g2 then false
     else if g3 then false
     else if g4 then false
     else true) = (!g1 && !g2 && !g3 && !g4) := by
  cases g1 <;> cases g2 <;> cases g3 <;> cases g4 <;> rfl

theorem searchKeep_eq_spec (query username : Str) (F T : Option Int)
    (m : StoredMessage) :
    searchKeep (lowerStr query) (lowerStr username) F T m =
      specCriteriaMatch query username F T m := by
  have h1 : equalFold m.Username (lowerStr username) =
      decide (lowerStr m.Username = lowerStr username) := by
    unfold equalFold
    rw [lowerStr_idem]
  have hF : (!(match F with
               | some f => decide (m.Timestamp < f)
               | none => false)) =
      (match F with
       | some f => decide (f ≤ m.Timestamp)
       | none => true) := by
    cases F with
    | none => rfl
    | some f =>
        show (!(decide (m.Timestamp < f))) = (decide (f ≤ m.Timestamp))
        rw [← decide_not, decide_eq_decide]
        omega
  have hT : (!(match T with
               | some t => decide (t < m.Timestamp)
               | none => false)) =
      (match T with
       | some t => decide (m.Timestamp ≤ t)
       | none => true) := by
    cases T with
    | none => rfl
    | some t =>
        show (!(decide (t < m.Timestamp))) = (decide (m.Timestamp ≤ t))
        rw [← decide_not, decide_eq_decide]
        omega
  unfold searchKeep specCriteriaMatch strContains
  rw [if_chain_eq, h1, lowerStr_isEmpty, lowerStr_isEmpty]
  rw [Bool.not_and, Bool.not_and, Bool.not_not, Bool.not_not, Bool.not_not,
    Bool.not_not, hF, hT]

theorem search_eq_filter_spec (s : Store) (query username : Str)
    (F T : Option Int) :
    s.Search query username F T =
      s.messages.filter (specCriteriaMatch query username F T) := by
  unfold Store.Search
  exact List.filter_congr (fun m _ => searchKeep_eq_spec query username F T m)

/-- Claim C6: an authenticated search request with at least one non-empty criterion
returns, in log (insertion) order, exactly the messages satisfying the
conjunction of all supplied criteria — query as a case-insensitive substring
of the content, username as a case-insensitive exact match on the author's
username, from/to as inclusive timestamp bounds — and mutates no state; a
request with no criterion supplied yields a domain error and no results. -/
theorem search_and_semantics (c : Client) (p : SearchPayload) (st : SState)
    (hauth : c.userID ≠ []) :
    (handleSearch c (some p) st).1 = st ∧
    ((p.Query = [] ∧ p.Username = [] ∧ p.From = none ∧ p.To = none) →
      (handleSearch c (some p) st).2 =
        [sendError (strOf "provide at least one search criterion (query, username, from, or to)")]) ∧
    (¬ (p.Query = [] ∧ p.Username = [] ∧ p.From = none ∧ p.To = none) →
      (handleSearch c (some p) st).2 =
        [⟨true, strOf "result(s)",
          RespData.msgs (st.store.messages.filter
            (specCriteriaMatch p.Query p.Username p.From p.To))⟩]) := by
  have hA : c.isAuthenticated = true := by
    simp [Client.isAuthenticated, isEmpty_false_of_ne_nil hauth]
  by_cases hcrit : p.Query = [] ∧ p.Username = [] ∧ p.From = none ∧ p.To = none
  · obtain ⟨h1, h2, h3, h4⟩ := hcrit
    refine ⟨?_, fun _ => ?_, fun hn => absurd ⟨h1, h2, h3, h4⟩ hn⟩ <;>
      simp [handleSearch, hA, h1, h2, h3, h4]
  · have hb : (p.Query.isEmpty && p.Username.isEmpty &&
        p.From.isNone && p.To.isNone) = false := by
      by_contra h
      apply hcrit
      rw [Bool.not_eq_false] at h
      simp only [Bool.and_eq_true, List.isEmpty_iff,
        Option.isNone_iff_eq_none] at h
      exact ⟨h.1.1.1, h.1.1.2, h.1.2, h.2⟩
    refine ⟨?_, fun hcontr => absurd hcontr hcrit, fun _ => ?_⟩ <;>
      simp [handleSearch, hA, hb, search_eq_filter_spec]

theorem search_and_semantics_witness :
    ((strOf "u1" : Str) ≠ []) ∧
    ((handleSearch (Client.mk (strOf "c1") (strOf "u1") (strOf "alice"))
        (some ⟨strOf "hello", strOf "alice", none, none⟩) sampleMsgSState).1 =
        sampleMsgSState ∧
     (((strOf "hello" : Str) = [] ∧ (strOf "alice" : Str) = [] ∧
          (none : Option Int) = none ∧ (none : Option Int) = none) →
       (handleSearch (Client.mk (strOf "c1") (strOf "u1") (strOf "alice"))
          (some ⟨strOf "hello", strOf "alice", none, none⟩) sampleMsgSState).2 =
         [sendError (strOf "provide at least one search criterion (query, username, from, or to)")]) ∧
     (¬ ((strOf "hello" : Str) = [] ∧ (strOf "alice" : Str) = [] ∧
          (none : Option Int) = none ∧ (none : Option Int) = none) →
       (handleSearch (Client.mk (strOf "c1") (strOf "u1") (strOf "alice"))
          (some ⟨strOf "hello", strOf "alice", none, none⟩) sampleMsgSState).2 =
         [⟨true, strOf "result(s)",
           RespData.msgs (sampleMsgSState.store.messages.filter
             (specCriteriaMatch (strOf "hello") (strOf "alice") none none))⟩])) ∧
    sampleMsgSState.store.messages.filter
        (specCriteriaMatch (strOf "hello") (strOf "alice") none none) =
      [msgHelloWorld, msgHelloAgain] :=
  ⟨by decide,
   search_and_semantics (Client.mk (strOf "c1") (strOf "u1") (strOf "alice"))
     ⟨strOf "hello", strOf "alice", none, none⟩ sampleMsgSState (by decide),
   by decide⟩

theorem effLimit_pos (inp : Option Int) : 0 < effLimit inp := by
  cases inp with
  | none => decide
  | some k =>
      unfold effLimit
      split <;> omega

/-- Claim C7: an authenticated history request never errors: the handler replaces
an absent, malformed, zero or negative limit by the default 20 and responds
success with the most recent `limit` messages of the log in oldest-to-newest
(insertion) order — a suffix of the log of length `min limit total` — and
when the limit exceeds the log length the whole log is returned. -/
theorem history_most_recent (c : Client) (inp : Option Int) (st : SState)
    (hauth : c.userID ≠ []) :
    handleHistory c inp st =
      (st, [⟨true, strOf "message(s)",
        RespData.msgs (st.store.GetHistory (effLimit inp))⟩]) ∧
    st.store.GetHistory (effLimit inp) <:+ st.store.messages ∧
    (st.store.GetHistory (effLimit inp)).length =
      min (effLimit inp).toNat st.store.messages.length ∧
    (∀ k, inp = some k → k ≤ 0 → effLimit inp = 20) ∧
    (inp = none → effLimit inp = 20) ∧
    ((st.store.messages.length : Int) ≤ effLimit inp →
      st.store.GetHistory (effLimit inp) = st.store.messages) := by
  have hpos := effLimit_pos inp
  refine ⟨?_, ?_, ?_, ?_, ?_, ?_⟩
  · have hA : c.isAuthenticated = true := by
      simp [Client.isAuthenticated, isEmpty_false_of_ne_nil hauth]
    simp [handleHistory, hA]
  · simp only [Store.GetHistory]
    split
    · exact List.suffix_refl _
    · exact List.drop_suffix _ _
  · simp only [Store.GetHistory]
    split
    · rename_i h
      rw [Nat.min_def]
      split <;> omega
    · rename_i h
      rw [List.length_drop, Nat.min_def]
      split <;> omega
  · intro k hk hk0
    subst hk
    simp [effLimit, hk0]
  · intro h
    subst h
    rfl
  · intro hle
    unfold Store.GetHistory
    rw [if_pos (Or.inr hle)]

theorem history_most_recent_witness :
    ((strOf "u1" : Str) ≠ []) ∧
    (handleHistory (Client.mk (strOf "c1") (strOf "u1") (strOf "alice"))
        (some 1) sampleMsgSState =
      (sampleMsgSState, [⟨true, strOf "message(s)",
        RespData.msgs (sampleMsgSState.store.GetHistory (effLimit (some 1)))⟩]) ∧
     sampleMsgSState.store.GetHistory (effLimit (some 1)) <:+
       sampleMsgSState.store.messages ∧
     (sampleMsgSState.store.GetHistory (effLimit (some 1))).length =
       min (effLimit (some 1)).toNat sampleMsgSState.store.messages.length ∧
     (∀ k, (some 1 : Option Int) = some k → k ≤ 0 → effLimit (some 1) = 20) ∧
     ((some 1 : Option Int) = none → effLimit (some 1) = 20) ∧
     ((sampleMsgSState.store.messages.length : Int) ≤ effLimit (some 1) →
       sampleMsgSState.store.GetHistory (effLimit (some 1)) =
         sampleMsgSState.store.messages)) ∧
    sampleMsgSState.store.GetHistory (effLimit (some 1)) = [msgHelloAgain] :=
  ⟨by decide,
   history_most_recent (Client.mk (strOf "c1") (strOf "u1") (strOf "alice"))
     (some 1) sampleMsgSState (by decide),
   by decide⟩

theorem foldl_assocInsert_reconstruct (l : List (Str × User)) :
    ∀ acc : List (Str × User),
      (∀ e ∈ l, e.1 = lowerStr e.2.Username) →
      (∀ e ∈ l, e.1 ∉ acc.map Prod.fst) →
      ((l.map Prod.fst).Nodup) →
      (l.map Prod.snd).foldl (fun m u => assocInsert (lowerStr u.Username) u m) acc =
        acc ++ l := by
  induction l with
  | nil => intro acc _ _ _; simp
  | cons e rest ih =>
      intro acc hk hdisj hnd
      obtain ⟨k, u⟩ := e
      have hnd' : k ∉ rest.map Prod.fst ∧ (rest.map Prod.fst).Nodup := by
        simpa using hnd
      have hk1 : k = lowerStr u.Username := hk (k, u) (by simp)
      have hni : lowerStr u.Username ∉ acc.map Prod.fst := by
        rw [← hk1]
        exact hdisj (k, u) (by simp)
      have hdisj' : ∀ e ∈ rest, e.1 ∉ (acc ++ [(k, u)]).map Prod.fst := by
        intro e he
        simp only [List.map_append, List.map_cons, List.map_nil,
          List.mem_append, List.mem_singleton]
        push_neg
        refine ⟨hdisj e (by simp [he]), fun hcontr => ?_⟩
        exact hnd'.1 (hcontr ▸ List.mem_map_of_mem Prod.fst he)
      simp only [List.map_cons, List.foldl_cons]
      rw [assocInsert_of_not_mem _ _ _ hni, ← hk1]
      rw [ih (acc ++ [(k, u)]) (fun e he => hk e (by simp [he])) hdisj' hnd'.2]
      simp

/-- Claim C9: saving the Store's accounts and messages to their backing files and
reloading reproduces exactly the same accounts and exactly the same messages
with their original insertion order preserved, for every store satisfying the
invariants the Store maintains (every user keyed by its lower-cased username,
keys distinct). -/
theorem store_round_trip (s : Store)
    (hk : ∀ e ∈ s.users, e.1 = lowerStr e.2.Username)
    (hnd : (s.users.map Prod.fst).Nodup) :
    (Store.load s.saveUsersLocked s.saveMessagesLocked).users = s.users ∧
    (Store.load s.saveUsersLocked s.saveMessagesLocked).messages = s.messages := by
  refine ⟨?_, rfl⟩
  show (s.users.map Prod.snd).foldl
      (fun m u => assocInsert (lowerStr u.Username) u m) [] = s.users
  simpa using foldl_assocInsert_reconstruct s.users [] hk (by simp) hnd

theorem store_round_trip_witness :
    (∀ e ∈ (Store.mk
        [(strOf "alice", User.mk (strOf "id1") (strOf "Alice") (strOf "h1") 1),
         (strOf "bob", User.mk (strOf "id2") (strOf "Bob") (strOf "h2") 2)]
        [] [msgHelloWorld, msgGoodbye]).users, e.1 = lowerStr e.2.Username) ∧
    ((Store.mk
        [(strOf "alice", User.mk (strOf "id1") (strOf "Alice") (strOf "h1") 1),
         (strOf "bob", User.mk (strOf "id2") (strOf "Bob") (strOf "h2") 2)]
        [] [msgHelloWorld, msgGoodbye]).users.map Prod.fst).Nodup ∧
    ((Store.load
        (Store.mk
          [(strOf "alice", User.mk (strOf "id1") (strOf "Alice") (strOf "h1") 1),
           (strOf "bob", User.mk (strOf "id2") (strOf "Bob") (strOf "h2") 2)]
          [] [msgHelloWorld, msgGoodbye]).saveUsersLocked
        (Store.mk
          [(strOf "alice", User.mk (strOf "id1") (strOf "Alice") (strOf "h1") 1),
           (strOf "bob", User.mk (strOf "id2") (strOf "Bob") (strOf "h2") 2)]
          [] [msgHelloWorld, msgGoodbye]).saveMessagesLocked).users =
      (Store.mk
        [(strOf "alice", User.mk (strOf "id1") (strOf "Alice") (strOf "h1") 1),
         (strOf "bob", User.mk (strOf "id2") (strOf "Bob") (strOf "h2") 2)]
        [] [msgHelloWorld, msgGoodbye]).users ∧
     (Store.load
        (Store.mk
          [(strOf "alice", User.mk (strOf "id1") (strOf "Alice") (strOf "h1") 1),
           (strOf "bob", User.mk (strOf "id2") (strOf "Bob") (strOf "h2") 2)]
          [] [msgHelloWorld, msgGoodbye]).saveUsersLocked
        (Store.mk
          [(strOf "alice", User.mk (strOf "id1") (strOf "Alice") (strOf "h1") 1),
           (strOf "bob", User.mk (strOf "id2") (strOf "Bob") (strOf "h2") 2)]
          [] [msgHelloWorld, msgGoodbye]).saveMessagesLocked).messages =
      (Store.mk
        [(strOf "alice", User.mk (strOf "id1") (strOf "Alice") (strOf "h1") 1),
         (strOf "bob", User.mk (strOf "id2") (strOf "Bob") (strOf "h2") 2)]
        [] [msgHelloWorld, msgGoodbye]).messages) :=
  ⟨by decide, by decide,
   store_round_trip
     (Store.mk
       [(strOf "alice", User.mk (strOf "id1") (strOf "Alice") (strOf "h1") 1),
        (strOf "bob", User.mk (strOf "id2") (strOf "Bob") (strOf "h2") 2)]
       [] [msgHelloWorld, msgGoodbye])
     (by decide) (by decide)⟩

theorem store_write_failure_propagates_witness :
    assocFind (lowerStr (strOf "alice")) (Store.mk [] [] []).users = none ∧
    (SState.mk (Store.mk [] [] []) [] [] []).store = Store.mk [] [] [] ∧
    (assocFind (lowerStr (strOf "alice"))
        ((Store.mk [] [] []).RegisterUser (fun p => p) (strOf "id1") 4 false
          (strOf "alice") (strOf "pw")).store.users =
      some ⟨strOf "id1", strOf "alice", (fun p : Str => p) (strOf "pw"), 4⟩ ∧
     ((Store.mk [] [] []).RegisterUser (fun p => p) (strOf "id1") 4 false
        (strOf "alice") (strOf "pw")).err = some RegErr.saveFailed ∧
     ((Store.mk [] [] []).SaveMessage false msgGoodbye).1.messages =
       (Store.mk [] [] []).messages ++ [msgGoodbye] ∧
     ((Store.mk [] [] []).SaveMessage false msgGoodbye).2 = some () ∧
     workerStep false msgGoodbye (Store.mk [] [] []) =
       ((Store.mk [] [] []).SaveMessage false msgGoodbye).1 ∧
     (handleRegister (Client.mk (strOf "c1") [] [])
        (some (strOf "alice", strOf "pw")) (fun p => p) (strOf "id1") 4 false
        (SState.mk (Store.mk [] [] []) [] [] [])).2.2 =
       [sendError (strOf "register failed")] ∧
     (handleRegister (Client.mk (strOf "c1") [] [])
        (some (strOf "alice", strOf "pw")) (fun p => p) (strOf "id1") 4 false
        (SState.mk (Store.mk [] [] []) [] [] [])).1.store =
       ((Store.mk [] [] []).RegisterUser (fun p => p) (strOf "id1") 4 false
         (strOf "alice") (strOf "pw")).store) :=
  ⟨by decide, rfl,
   store_write_failure_propagates (Store.mk [] [] []) (fun p => p)
     (strOf "id1") 4 (strOf "alice") (strOf "pw") msgGoodbye
     (Client.mk (strOf "c1") [] []) (SState.mk (Store.mk [] [] []) [] [] [])
     (by decide) rfl⟩

end Chat
